import Mathlib

/-!
Verification of the heartbeat/outage state machine and statistics engine of
`bot.py` (light_status_bot).

The SQLite tables `channels`, `history` and `notifications` are modelled as
lists of records.  `REAL` epoch timestamps are modelled as integers: the source
only adds, subtracts and compares timestamps (never divides), so the embedding
uses exact integer arithmetic on the time axis.  The timezone conversion
performed with `pytz` (computing local midnight and the current wall-clock
instant) is an external collaborator: the two instants it produces are passed
to `get_daily_stats` as explicit parameters `today_start` and `now_ts`, exactly
the two values the source derives before touching the database.
-/

namespace LightStatus

/-- A row of the `history` table: `history(channel_id, status, timestamp)`.
`status` is stored as 0/1 in SQLite; we model it as `Bool` (`true` = power on). -/
structure HEvent where
  channel_id : Int
  status : Bool
  timestamp : Int
deriving DecidableEq

/-- A row of the `channels` table (the columns the core logic reads). -/
structure Channel where
  channel_id : Int
  owner_id : Option Int
  api_key : String
  timezone : String
  last_request_time : Option Int
  is_power_on : Bool
  last_status_change : Option Int
  paused : Bool
deriving DecidableEq

/-- A row of the `notifications` table. -/
structure Sub where
  user_id : Int
  channel_id : Int
  enabled : Bool
deriving DecidableEq

/-- The database state read and written by the core. -/
structure DB where
  channels : List Channel
  history : List HEvent
  subs : List Sub
deriving DecidableEq

/-- The record returned by `get_daily_stats`. -/
structure Stats where
  uptime : Int
  downtime : Int
  outages : Nat
deriving DecidableEq

/-! ### Query helpers (the SQL statements) -/

/-- Insert an event into a list sorted by timestamp, before any event with the
same timestamp that was inserted earlier in table order. -/
def insertByTs (e : HEvent) : List HEvent → List HEvent
  | [] => [e]
  | x :: xs => if e.timestamp ≤ x.timestamp then e :: x :: xs else x :: insertByTs e xs

/-- Stable sort by timestamp: the determinization of `ORDER BY timestamp`
(ties keep table order, which is insertion order). -/
def sortByTs : List HEvent → List HEvent
  | [] => []
  | x :: xs => insertByTs x (sortByTs xs)

/-- `SELECT status, timestamp FROM history WHERE channel_id = ? AND timestamp >= ?
ORDER BY timestamp ASC` (bot.py line 170). -/
def historyRows (db : DB) (cid : Int) (t0 : Int) : List HEvent :=
  sortByTs (db.history.filter (fun e => decide (e.channel_id = cid ∧ t0 ≤ e.timestamp)))

/-- `SELECT status FROM history WHERE channel_id = ? AND timestamp < ?
ORDER BY timestamp DESC LIMIT 1` (bot.py line 176). -/
def statusAtMidnight (db : DB) (cid : Int) (t0 : Int) : Option Bool :=
  ((sortByTs (db.history.filter (fun e => decide (e.channel_id = cid ∧ e.timestamp < t0)))).getLast?).map HEvent.status

/-- `SELECT ... FROM channels WHERE channel_id = ?` + `fetchone`. -/
def findChannelById (db : DB) (cid : Int) : Option Channel :=
  db.channels.find? (fun c => c.channel_id == cid)

/-- `SELECT ... FROM channels WHERE api_key = ?` + `fetchone`
(bot.py `get_channel_by_key`; the source projects a subset of columns, all of
which are fields of `Channel`). -/
def get_channel_by_key (db : DB) (key : String) : Option Channel :=
  db.channels.find? (fun c => c.api_key == key)

/-! ### `get_daily_stats` (bot.py lines 162-241) -/

/-- The mutable locals of the `for status, timestamp in rows` loop. -/
structure WalkAcc where
  uptime : Int
  downtime : Int
  outages : Nat
  prev_status : Bool
  prev_time : Int
deriving DecidableEq

/-- The loop body of `get_daily_stats` (bot.py lines 217-228). -/
def statsLoop : List HEvent → WalkAcc → WalkAcc
  | [], acc => acc
  | e :: rest, acc =>
    let duration := e.timestamp - acc.prev_time
    let uptime := if acc.prev_status then acc.uptime + duration else acc.uptime
    let downtime := if acc.prev_status then acc.downtime else acc.downtime + duration
    let outages := if e.status = false ∧ acc.prev_status = true then acc.outages + 1 else acc.outages
    statsLoop rest ⟨uptime, downtime, outages, e.status, e.timestamp⟩

/-- The loop followed by the trailing span `now_ts - prev_time`
(bot.py lines 217-241). -/
def finishWalk (rows : List HEvent) (acc0 : WalkAcc) (now_ts : Int) : Stats :=
  if (statsLoop rows acc0).prev_status then
    ⟨(statsLoop rows acc0).uptime + (now_ts - (statsLoop rows acc0).prev_time),
     (statsLoop rows acc0).downtime, (statsLoop rows acc0).outages⟩
  else
    ⟨(statsLoop rows acc0).uptime,
     (statsLoop rows acc0).downtime + (now_ts - (statsLoop rows acc0).prev_time),
     (statsLoop rows acc0).outages⟩

/-- `get_daily_stats(channel_id, timezone)` with the two `pytz`-derived
instants (`today_start`, `now_ts`) passed explicitly. -/
def get_daily_stats (db : DB) (cid : Int) (today_start now_ts : Int) : Option Stats :=
  if historyRows db cid today_start = [] ∧ statusAtMidnight db cid today_start = none then
    match findChannelById db cid with
    | none => none
    | some ch =>
      match ch.last_status_change with
      | none => none
      | some _ =>
        if ch.is_power_on then some ⟨now_ts - today_start, 0, 0⟩
        else some ⟨0, now_ts - today_start, 0⟩
  else
    match statusAtMidnight db cid today_start, historyRows db cid today_start with
    | some s0, rs =>
      some (finishWalk rs ⟨0, 0, if s0 = false then 1 else 0, s0, today_start⟩ now_ts)
    | none, e :: rest =>
      some (finishWalk (e :: rest) ⟨0, 0, 0, e.status, today_start⟩ now_ts)
    | none, [] => none

/-! ### Conservation (claim C1) -/

theorem statsLoop_conserve (rows : List HEvent) (acc : WalkAcc) :
    (statsLoop rows acc).uptime + (statsLoop rows acc).downtime - (statsLoop rows acc).prev_time
      = acc.uptime + acc.downtime - acc.prev_time := by
  induction rows generalizing acc with
  | nil => rfl
  | cons e rest ih =>
    simp only [statsLoop]
    rw [ih]
    by_cases h : acc.prev_status <;> simp [h] <;> ring

theorem finishWalk_conserve (rows : List HEvent) (acc0 : WalkAcc) (tn : Int) :
    (finishWalk rows acc0 tn).uptime + (finishWalk rows acc0 tn).downtime
      = acc0.uptime + acc0.downtime - acc0.prev_time + tn := by
  have h := statsLoop_conserve rows acc0
  unfold finishWalk
  split <;> dsimp only <;> linarith [h]

/-- C1: whenever `get_daily_stats` returns a result, uptime plus downtime is
exactly `now_ts - today_start` (asOf minus local midnight), on every path of the
algorithm. -/
theorem daily_stats_conservation (db : DB) (cid : Int) (t0 tn : Int) (s : Stats)
    (h : get_daily_stats db cid t0 tn = some s) :
    s.uptime + s.downtime = tn - t0 := by
  unfold get_daily_stats at h
  by_cases hempty : historyRows db cid t0 = [] ∧ statusAtMidnight db cid t0 = none
  · rw [if_pos hempty] at h
    rcases hfc : findChannelById db cid with _ | ch
    · rw [hfc] at h; exact absurd h (by simp)
    · rw [hfc] at h
      simp only at h
      rcases hlc : ch.last_status_change with _ | t
      · rw [hlc] at h; exact absurd h (by simp)
      · rw [hlc] at h
        simp only at h
        by_cases hon : ch.is_power_on = true
        · rw [if_pos hon] at h
          injection h with h
          rw [← h]
          simp
        · rw [if_neg hon] at h
          injection h with h
          rw [← h]
          simp
  · rw [if_neg hempty] at h
    rcases hsam : statusAtMidnight db cid t0 with _ | s0 <;> rw [hsam] at h
    · rcases hrows : historyRows db cid t0 with _ | ⟨e, rest⟩ <;> rw [hrows] at h
      · exact absurd ⟨hrows, hsam⟩ hempty
      · simp only at h
        injection h with h
        rw [← h]
        have hc := finishWalk_conserve (e :: rest) ⟨0, 0, 0, e.status, t0⟩ tn
        simp only at hc
        rw [hc]; ring
    · simp only at h
      injection h with h
      rw [← h]
      have hc := finishWalk_conserve (historyRows db cid t0)
        ⟨0, 0, if s0 = false then 1 else 0, s0, t0⟩ tn
      simp only at hc
      rw [hc]; ring

/-! ### A structural description of the walk (used for claims C3 and C4) -/

/-- Number of ON→OFF transitions in a state sequence opened with `s0`. -/
def onOffCount : Bool → List Bool → Nat
  | _, [] => 0
  | s0, b :: rest => (if s0 = true ∧ b = false then 1 else 0) + onOffCount b rest

/-- Structural recursion equivalent of the integration loop: walk the events
from `t0` with opening state `s0`, attributing each span to the state in force
before it and counting ON→OFF transitions. -/
def specWalk : Bool → Int → List HEvent → Int → Stats
  | s0, t0, [], tn => if s0 then ⟨tn - t0, 0, 0⟩ else ⟨0, tn - t0, 0⟩
  | s0, t0, e :: rest, tn =>
    ⟨(if s0 then e.timestamp - t0 else 0) + (specWalk e.status e.timestamp rest tn).uptime,
     (if s0 then 0 else e.timestamp - t0) + (specWalk e.status e.timestamp rest tn).downtime,
     (if s0 = true ∧ e.status = false then 1 else 0) + (specWalk e.status e.timestamp rest tn).outages⟩

theorem finishWalk_eq_specWalk (rows : List HEvent) (u d : Int) (o : Nat) (s0 : Bool)
    (t0 tn : Int) :
    finishWalk rows ⟨u, d, o, s0, t0⟩ tn
      = ⟨u + (specWalk s0 t0 rows tn).uptime, d + (specWalk s0 t0 rows tn).downtime,
         o + (specWalk s0 t0 rows tn).outages⟩ := by
  induction rows generalizing u d o s0 t0 with
  | nil =>
    cases s0 <;> simp [finishWalk, statsLoop, specWalk]
  | cons e rest ih =>
    have hstep : finishWalk (e :: rest) ⟨u, d, o, s0, t0⟩ tn
        = finishWalk rest ⟨if s0 then u + (e.timestamp - t0) else u,
            if s0 then d else d + (e.timestamp - t0),
            if e.status = false ∧ s0 = true then o + 1 else o,
            e.status, e.timestamp⟩ tn := by
      unfold finishWalk
      simp only [statsLoop]
    rw [hstep, ih]
    cases s0 <;> cases he : e.status <;>
      simp [specWalk, he, Stats.mk.injEq] <;> omega

theorem specWalk_outages (s0 : Bool) (t0 : Int) (rows : List HEvent) (tn : Int) :
    (specWalk s0 t0 rows tn).outages = onOffCount s0 (rows.map HEvent.status) := by
  induction rows generalizing s0 t0 with
  | nil => cases s0 <;> simp [specWalk, onOffCount]
  | cons e rest ih => simp [specWalk, onOffCount, ih]

/-- Witness for C1 at a concrete input. -/
theorem daily_stats_conservation_witness :
    get_daily_stats ⟨[⟨1, some 9, "k", "Europe/Kiev", some 50, true, some 5, false⟩], [], []⟩ 1 0 100
        = some ⟨100, 0, 0⟩ ∧ (100 : Int) + 0 = 100 - 0 :=
  ⟨by decide,
   daily_stats_conservation ⟨[⟨1, some 9, "k", "Europe/Kiev", some 50, true, some 5, false⟩], [], []⟩
     1 0 100 ⟨100, 0, 0⟩ (by decide)⟩

/-! ### State at midnight and outage count: spec wording vs. code (claims C3, C4) -/

/-- Modelled from the spec's words (§4.3 step 3): the state at midnight is the
state of the most recent event strictly before midnight, with fallback to the
device's current `state` whenever no such event exists. -/
def stateAtMidnightSpec (db : DB) (cid : Int) (t0 : Int) : Option Bool :=
  match statusAtMidnight db cid t0 with
  | some s => some s
  | none => (findChannelById db cid).map Channel.is_power_on

/-- Modelled from the spec's words (claim C3, spec §3 DailyStats): outage count
is the number of ON→OFF transitions in the window plus 1 exactly when the
window opened already OFF, the opening state being `stateAtMidnightSpec`. -/
def outagesSpecC3 (db : DB) (cid : Int) (t0 : Int) : Option Nat :=
  match stateAtMidnightSpec db cid t0 with
  | none => none
  | some s0 =>
    some ((if s0 = false then 1 else 0) + onOffCount s0 ((historyRows db cid t0).map HEvent.status))

/-- Modelled from the spec's words (claim C4): the variant of `get_daily_stats`
whose fallback for the state at midnight, when in-window events exist but no
pre-midnight event does, is the device's current `state` (`is_power_on`) rather
than the first in-window event's state; identical to the source everywhere else. -/
def get_daily_stats_specC4 (db : DB) (cid : Int) (today_start now_ts : Int) : Option Stats :=
  if historyRows db cid today_start = [] ∧ statusAtMidnight db cid today_start = none then
    match findChannelById db cid with
    | none => none
    | some ch =>
      match ch.last_status_change with
      | none => none
      | some _ =>
        if ch.is_power_on then some ⟨now_ts - today_start, 0, 0⟩
        else some ⟨0, now_ts - today_start, 0⟩
  else
    match statusAtMidnight db cid today_start, historyRows db cid today_start with
    | some s0, rs =>
      some (finishWalk rs ⟨0, 0, if s0 = false then 1 else 0, s0, today_start⟩ now_ts)
    | none, e :: rest =>
      match findChannelById db cid with
      | some ch => some (finishWalk (e :: rest) ⟨0, 0, 0, ch.is_power_on, today_start⟩ now_ts)
      | none => none
    | none, [] => none

/-- A device with no pre-midnight events, an ON event at 08:00 and an OFF event
at 09:00 local (timestamps in seconds from local midnight), queried at 10:00. -/
def dbFirstDay : DB :=
  ⟨[⟨1, some 9, "k", "Europe/Kiev", some 32400, false, some 32400, false⟩],
   [⟨1, true, 28800⟩, ⟨1, false, 32400⟩], []⟩

/-- A device with no history events at all but a recorded `last_status_change`,
currently OFF: the early branch of `get_daily_stats` (bot.py lines 182-195). -/
def dbNoEventsOff : DB :=
  ⟨[⟨1, some 9, "k", "Europe/Kiev", some 50, false, some 5, false⟩], [], []⟩

/-- Counterexample to C3 as stated: with no events at all and the device's
state (constant all day) OFF, the code returns `outages = 0`, while the claim's
formula — plus 1 whenever the window opened already OFF, explicitly including
this very case — demands 1. -/
theorem outage_count_claim_counterexample :
    get_daily_stats dbNoEventsOff 1 0 100 = some ⟨0, 100, 0⟩
      ∧ outagesSpecC3 dbNoEventsOff 1 0 = some 1
      ∧ ¬ (get_daily_stats dbNoEventsOff 1 0 100).map Stats.outages
            = outagesSpecC3 dbNoEventsOff 1 0 := by
  refine ⟨by decide, by decide, by decide⟩

/-- C3 as amended: `outage_count` equals the number of ON→OFF transitions of
the walked state sequence, whose opening state is the pre-midnight event's
state when one exists (plus 1 exactly when that state is OFF), and the first
in-window event's state otherwise (with no +1); when no events exist at all the
count is 0. -/
theorem daily_stats_outage_count (db : DB) (cid : Int) (t0 tn : Int) (s : Stats)
    (h : get_daily_stats db cid t0 tn = some s) :
    s.outages =
      match statusAtMidnight db cid t0, historyRows db cid t0 with
      | some s0, rs => (if s0 = false then 1 else 0) + onOffCount s0 (rs.map HEvent.status)
      | none, e :: rest => onOffCount e.status ((e :: rest).map HEvent.status)
      | none, [] => 0 := by
  unfold get_daily_stats at h
  by_cases hempty : historyRows db cid t0 = [] ∧ statusAtMidnight db cid t0 = none
  · rw [if_pos hempty] at h
    obtain ⟨hrows, hsam⟩ := hempty
    simp only [hsam, hrows]
    rcases hfc : findChannelById db cid with _ | ch
    · rw [hfc] at h; exact absurd h (by simp)
    · rw [hfc] at h
      simp only at h
      rcases hlc : ch.last_status_change with _ | t
      · rw [hlc] at h; exact absurd h (by simp)
      · rw [hlc] at h
        simp only at h
        by_cases hon : ch.is_power_on = true
        · rw [if_pos hon] at h; injection h with h; rw [← h]
        · rw [if_neg hon] at h; injection h with h; rw [← h]
  · rw [if_neg hempty] at h
    rcases hsam : statusAtMidnight db cid t0 with _ | s0 <;> rw [hsam] at h
    · rcases hrows : historyRows db cid t0 with _ | ⟨e, rest⟩ <;> rw [hrows] at h
      · exact absurd ⟨hrows, hsam⟩ hempty
      · simp only at h
        injection h with h
        simp only [hsam, hrows, ← h]
        rw [finishWalk_eq_specWalk]
        simp [specWalk_outages]
    · simp only at h
      injection h with h
      simp only [hsam, ← h]
      rw [finishWalk_eq_specWalk]
      simp [specWalk_outages]

/-- Witness for the amended C3: spec Scenario C — OFF since before midnight,
heartbeat (ON event) at 10:00 local, queried at 10:00: one carried-over outage. -/
theorem daily_stats_outage_count_witness :
    get_daily_stats ⟨[⟨1, some 9, "k", "Europe/Kiev", some 36000, true, some 36000, false⟩],
        [⟨1, false, -7200⟩, ⟨1, true, 36000⟩], []⟩ 1 0 36000 = some ⟨0, 36000, 1⟩
      ∧ (⟨0, 36000, 1⟩ : Stats).outages = 1 :=
  ⟨by decide, by
    have := daily_stats_outage_count
      ⟨[⟨1, some 9, "k", "Europe/Kiev", some 36000, true, some 36000, false⟩],
        [⟨1, false, -7200⟩, ⟨1, true, 36000⟩], []⟩ 1 0 36000 ⟨0, 36000, 1⟩ (by decide)
    exact this.trans (by decide)⟩

/-- Counterexample to C4 as stated: a device whose only events lie inside the
window (ON 08:00, OFF 09:00), currently OFF.  The code attributes the span from
midnight to 08:00 by the first event's state (ON → uptime 9h), not by the
device's current state as the claim says (OFF → uptime 1h). -/
theorem midnight_fallback_claim_counterexample :
    statusAtMidnight dbFirstDay 1 0 = none
      ∧ ¬ historyRows dbFirstDay 1 0 = []
      ∧ get_daily_stats dbFirstDay 1 0 36000 = some ⟨32400, 3600, 1⟩
      ∧ get_daily_stats_specC4 dbFirstDay 1 0 36000 = some ⟨3600, 32400, 1⟩
      ∧ ¬ get_daily_stats dbFirstDay 1 0 36000 = get_daily_stats_specC4 dbFirstDay 1 0 36000 := by
  refine ⟨by decide, by decide, by decide, by decide, by decide⟩

/-- C4 as amended: the state at midnight is the most recent pre-midnight
event's state; when none exists but in-window events do, the algorithm opens
the walk with the *first in-window event's* state (so the span from midnight to
the first event is attributed according to that event's state); the device's
current state is consulted only when there are no events at all. -/
theorem daily_stats_fallback_first_event (db : DB) (cid : Int) (t0 tn : Int)
    (e : HEvent) (rest : List HEvent)
    (h1 : statusAtMidnight db cid t0 = none)
    (h2 : historyRows db cid t0 = e :: rest) :
    get_daily_stats db cid t0 tn = some (specWalk e.status t0 (e :: rest) tn) := by
  unfold get_daily_stats
  rw [if_neg (by simp [h2])]
  rw [h1, h2]
  simp only
  rw [finishWalk_eq_specWalk]
  simp

/-- Witness for the amended C4 at the concrete first-day device. -/
theorem daily_stats_fallback_first_event_witness :
    statusAtMidnight dbFirstDay 1 0 = none
      ∧ historyRows dbFirstDay 1 0 = [⟨1, true, 28800⟩, ⟨1, false, 32400⟩]
      ∧ get_daily_stats dbFirstDay 1 0 36000
          = some (specWalk true 0 [⟨1, true, 28800⟩, ⟨1, false, 32400⟩] 36000) :=
  ⟨by decide, by decide,
    daily_stats_fallback_first_event dbFirstDay 1 0 36000 ⟨1, true, 28800⟩ [⟨1, false, 32400⟩]
      (by decide) (by decide)⟩

/-! ### Mutations (bot.py `update_last_request`, `update_power_status`) -/

/-- `UPDATE channels SET last_request_time = ? WHERE api_key = ?`
(bot.py lines 81-85). -/
def update_last_request (db : DB) (key : String) (ts : Int) : DB :=
  { db with channels := db.channels.map (fun c =>
      if c.api_key = key then { c with last_request_time := some ts } else c) }

/-- `update_power_status` (bot.py lines 87-98): look up the channel id by key;
if found, set `is_power_on` and `last_status_change` and append a history row. -/
def update_power_status (db : DB) (key : String) (is_on : Bool) (ts : Int) : DB :=
  match db.channels.find? (fun c => c.api_key == key) with
  | none => db
  | some ch =>
    { db with
      channels := db.channels.map (fun c =>
        if c.api_key = key then { c with is_power_on := is_on, last_status_change := some ts } else c),
      history := db.history ++ [⟨ch.channel_id, is_on, ts⟩] }

/-! ### The heartbeat endpoint (bot.py `handle_ping`, lines 1428-1491) -/

/-- Direction of a transition notification. -/
inductive Direction where
  | recovered
  | lost
deriving DecidableEq

/-- The observable content of a transition notification. -/
structure Note where
  channel_id : Int
  direction : Direction
  elapsed : Option Int
deriving DecidableEq

/-- One Telegram send: the chat it goes to and the notification it carries. -/
structure Msg where
  chat_id : Int
  note : Note
deriving DecidableEq

/-- The HTTP outcome of `handle_ping`: 400 missing key, 403 invalid key, 200 OK. -/
inductive Resp where
  | badRequest
  | forbidden
  | ok
deriving DecidableEq

/-- `SELECT user_id FROM notifications WHERE channel_id = ? AND enabled = 1`. -/
def enabledSubs (db : DB) (cid : Int) : List Int :=
  (db.subs.filter (fun s => s.channel_id == cid && s.enabled)).map Sub.user_id

/-- The elapsed-time line of the recovered message: `if channel["last_status_change"]`
is Python truthiness, so both `NULL` and `0.0` yield "unknown" (bot.py lines 1448-1452). -/
def pingElapsed (ch : Channel) (now : Int) : Option Int :=
  match ch.last_status_change with
  | some lc => if lc = 0 then none else some (now - lc)
  | none => none

/-- `handle_ping` (bot.py lines 1428-1491).  `tg` models whether the global
`telegram_app` is set (message sends are skipped when it is not); the returned
list holds the sends that are attempted: the channel post followed by the
enabled subscribers' DMs. -/
def handle_ping (tg : Bool) (db : DB) : Option String → Int → DB × Resp × List Msg
  | none, _ => (db, Resp.badRequest, [])
  | some api_key, now =>
    if api_key = "" then (db, Resp.badRequest, [])
    else
      match get_channel_by_key db api_key with
      | none => (db, Resp.forbidden, [])
      | some channel =>
        let was_on := channel.is_power_on
        let db1 := update_last_request db api_key now
        if was_on then (db1, Resp.ok, [])
        else
          let db2 := update_power_status db1 api_key true now
          let note : Note := ⟨channel.channel_id, Direction.recovered, pingElapsed channel now⟩
          let msgs := if tg then
              ⟨channel.channel_id, note⟩ :: (enabledSubs db2 channel.channel_id).map (fun u => ⟨u, note⟩)
            else []
          (db2, Resp.ok, msgs)

/-! ### Helper lemmas about the mutations -/

theorem find?_proj_map {β : Type} [BEq β] (g : Channel → β) (f : Channel → Channel)
    (hf : ∀ c, g (f c) = g c) (v : β) (l : List Channel) :
    (l.map f).find? (fun c => g c == v) = Option.map f (l.find? (fun c => g c == v)) := by
  induction l with
  | nil => rfl
  | cons c rest ih =>
    simp only [List.map_cons, List.find?, hf c]
    cases h : (g c == v) <;> simp [h, ih]

theorem update_last_request_twice (db : DB) (k : String) (n1 n2 : Int) :
    update_last_request (update_last_request db k n1) k n2 = update_last_request db k n2 := by
  unfold update_last_request
  simp only [List.map_map]
  have hfun : ((fun c => if c.api_key = k then { c with last_request_time := some n2 } else c) ∘
      (fun c => if c.api_key = k then { c with last_request_time := some n1 } else c))
      = (fun c : Channel => if c.api_key = k then { c with last_request_time := some n2 } else c) := by
    funext c
    by_cases h : c.api_key = k <;> simp [h, Function.comp]
  rw [hfun]

/-- C5: while a device is ON, a heartbeat with its key only refreshes
`last_seen`: the whole effect is `update_last_request` (which touches no other
column, the history, or the subscriptions), the response is OK, no message is
sent, and a repeated heartbeat does exactly the same again. -/
theorem heartbeat_idempotent (tg : Bool) (db : DB) (k : String) (now now2 : Int)
    (ch : Channel) (hk : ¬ k = "") (hfind : get_channel_by_key db k = some ch)
    (hon : ch.is_power_on = true) :
    handle_ping tg db (some k) now = (update_last_request db k now, Resp.ok, [])
    ∧ (update_last_request db k now).history = db.history
    ∧ (update_last_request db k now).subs = db.subs
    ∧ (update_last_request db k now).channels
        = db.channels.map (fun c =>
            if c.api_key = k then { c with last_request_time := some now } else c)
    ∧ handle_ping tg (update_last_request db k now) (some k) now2
        = (update_last_request db k now2, Resp.ok, []) := by
  have hkey : ch.api_key = k := by
    have := List.find?_some hfind
    simpa using this
  have hfind2 : get_channel_by_key (update_last_request db k now) k
      = some { ch with last_request_time := some now } := by
    unfold get_channel_by_key update_last_request
    rw [find?_proj_map Channel.api_key _ (fun c => by by_cases h : c.api_key = k <;> simp [h]) k]
    rw [show db.channels.find? (fun c => c.api_key == k) = some ch from hfind]
    simp [hkey]
  refine ⟨?_, rfl, rfl, rfl, ?_⟩
  · simp only [handle_ping, if_neg hk, hfind, hon, if_true]
  · simp only [handle_ping, if_neg hk, hfind2, hon, if_true]
    rw [update_last_request_twice]

/-- Witness for C5 at a concrete input. -/
theorem heartbeat_idempotent_witness :
    ¬ "k" = ""
    ∧ get_channel_by_key ⟨[⟨1, some 9, "k", "Europe/Kiev", some 50, true, some 5, false⟩], [], []⟩ "k"
        = some ⟨1, some 9, "k", "Europe/Kiev", some 50, true, some 5, false⟩
    ∧ handle_ping true ⟨[⟨1, some 9, "k", "Europe/Kiev", some 50, true, some 5, false⟩], [], []⟩
        (some "k") 60
        = (update_last_request ⟨[⟨1, some 9, "k", "Europe/Kiev", some 50, true, some 5, false⟩], [], []⟩ "k" 60,
           Resp.ok, []) :=
  ⟨by decide, by decide,
    (heartbeat_idempotent true ⟨[⟨1, some 9, "k", "Europe/Kiev", some 50, true, some 5, false⟩], [], []⟩
      "k" 60 70 ⟨1, some 9, "k", "Europe/Kiev", some 50, true, some 5, false⟩
      (by decide) (by decide) (by decide)).1⟩

/-- C7: a heartbeat whose (non-empty) token matches no device is rejected with
403 and has no side effects at all: the database is returned unchanged and no
message is sent. -/
theorem invalid_key_rejected (tg : Bool) (db : DB) (k : String) (now : Int)
    (hk : ¬ k = "") (hfind : get_channel_by_key db k = none) :
    handle_ping tg db (some k) now = (db, Resp.forbidden, []) := by
  simp only [handle_ping, if_neg hk, hfind]

/-- Witness for C7 at a concrete input. -/
theorem invalid_key_rejected_witness :
    ¬ "z" = ""
    ∧ get_channel_by_key ⟨[⟨1, some 9, "k", "Europe/Kiev", some 50, true, some 5, false⟩], [], []⟩ "z"
        = none
    ∧ handle_ping true ⟨[⟨1, some 9, "k", "Europe/Kiev", some 50, true, some 5, false⟩], [], []⟩
        (some "z") 60
        = (⟨[⟨1, some 9, "k", "Europe/Kiev", some 50, true, some 5, false⟩], [], []⟩, Resp.forbidden, []) :=
  ⟨by decide, by decide,
    invalid_key_rejected true ⟨[⟨1, some 9, "k", "Europe/Kiev", some 50, true, some 5, false⟩], [], []⟩
      "z" 60 (by decide) (by decide)⟩

/-! ### The paused flag (claim C10) -/

/-- `UPDATE channels SET paused = ? WHERE channel_id = ?` (bot.py lines 775-777). -/
def set_paused (db : DB) (cid : Int) (b : Bool) : DB :=
  { db with channels := db.channels.map (fun c =>
      if c.channel_id = cid then { c with paused := b } else c) }

theorem update_power_status_subs (db : DB) (k : String) (b : Bool) (ts : Int) :
    (update_power_status db k b ts).subs = db.subs := by
  unfold update_power_status
  rcases h : db.channels.find? (fun c => c.api_key == k) with _ | ch <;> rw [h]

theorem enabledSubs_congr (db1 db2 : DB) (cid : Int) (h : db1.subs = db2.subs) :
    enabledSubs db1 cid = enabledSubs db2 cid := by
  unfold enabledSubs
  rw [h]

theorem get_key_update_last_request (db : DB) (k : String) (ts : Int) (ch : Channel)
    (hfind : get_channel_by_key db k = some ch) :
    get_channel_by_key (update_last_request db k ts) k
      = some { ch with last_request_time := some ts } := by
  have hkey : ch.api_key = k := by simpa using List.find?_some hfind
  unfold get_channel_by_key update_last_request
  rw [find?_proj_map Channel.api_key _
    (fun c => by by_cases h : c.api_key = k <;> simp [h]) k]
  unfold get_channel_by_key at hfind
  rw [hfind]
  simp [hkey]

/-- Computation of `handle_ping` when the device is currently not ON. -/
theorem handle_ping_off (tg : Bool) (db : DB) (k : String) (now : Int) (ch : Channel)
    (hk : ¬ k = "") (hfind : get_channel_by_key db k = some ch)
    (hoff : ch.is_power_on = false) :
    handle_ping tg db (some k) now =
      (update_power_status (update_last_request db k now) k true now, Resp.ok,
       if tg then
         ⟨ch.channel_id, ⟨ch.channel_id, Direction.recovered, pingElapsed ch now⟩⟩ ::
           (enabledSubs (update_power_status (update_last_request db k now) k true now)
             ch.channel_id).map
             (fun u => ⟨u, ⟨ch.channel_id, Direction.recovered, pingElapsed ch now⟩⟩)
       else []) := by
  simp only [handle_ping, if_neg hk, hfind, hoff, Bool.false_eq_true, if_false]

theorem update_power_status_on_found (db : DB) (k : String) (now : Int) (ch : Channel)
    (hfind : get_channel_by_key db k = some ch) :
    update_power_status (update_last_request db k now) k true now =
      { channels := (update_last_request db k now).channels.map (fun c =>
          if c.api_key = k then { c with is_power_on := true, last_status_change := some now } else c),
        history := db.history ++ [⟨ch.channel_id, true, now⟩],
        subs := db.subs } := by
  have h1 := get_key_update_last_request db k now ch hfind
  unfold get_channel_by_key at h1
  unfold update_power_status
  rw [h1]
  rfl

/-- C10: `paused` gates only the timeout scanner.  A valid heartbeat for a
paused device that is not ON performs the full transition — appends
`HistoryEvent(ON, now)`, sets `last_change = last_seen = now`, answers OK, and
emits the recovered notification first to the channel — and toggling the
`paused` flag changes neither the appended history nor the response nor the
messages. -/
theorem paused_device_heartbeat (tg : Bool) (db : DB) (k : String) (now : Int)
    (ch : Channel) (hk : ¬ k = "") (hfind : get_channel_by_key db k = some ch)
    (hoff : ch.is_power_on = false) (_hpaused : ch.paused = true) (htg : tg = true) :
    (handle_ping tg db (some k) now).1.history = db.history ++ [⟨ch.channel_id, true, now⟩]
    ∧ ({ ch with last_request_time := some now, is_power_on := true, last_status_change := some now } : Channel)
        ∈ (handle_ping tg db (some k) now).1.channels
    ∧ (handle_ping tg db (some k) now).2.1 = Resp.ok
    ∧ (handle_ping tg db (some k) now).2.2.head?
        = some ⟨ch.channel_id, ⟨ch.channel_id, Direction.recovered, pingElapsed ch now⟩⟩
    ∧ ∀ b : Bool,
        (handle_ping tg (set_paused db ch.channel_id b) (some k) now).1.history
            = (handle_ping tg db (some k) now).1.history
        ∧ (handle_ping tg (set_paused db ch.channel_id b) (some k) now).2
            = (handle_ping tg db (some k) now).2 := by
  have hkey : ch.api_key = k := by simpa using List.find?_some hfind
  have hmem : ch ∈ db.channels := List.mem_of_find?_eq_some hfind
  have hmain := handle_ping_off tg db k now ch hk hfind hoff
  have hups := update_power_status_on_found db k now ch hfind
  refine ⟨?_, ?_, ?_, ?_, ?_⟩
  · rw [hmain, hups]
  · rw [hmain, hups]
    simp only [update_last_request, List.map_map]
    have h2 := List.mem_map_of_mem
      ((fun c => if c.api_key = k then { c with is_power_on := true, last_status_change := some now } else c) ∘
       (fun c => if c.api_key = k then { c with last_request_time := some now } else c)) hmem
    simpa [Function.comp, hkey] using h2
  · rw [hmain]
  · rw [hmain, htg]
    rfl
  · intro b
    have hpk : ∀ c : Channel,
        ((fun c : Channel => if c.channel_id = ch.channel_id then { c with paused := b } else c) c).api_key
          = c.api_key := by
      intro c
      by_cases h : c.channel_id = ch.channel_id <;> simp [h]
    have hfind' : get_channel_by_key (set_paused db ch.channel_id b) k
        = some { ch with paused := b } := by
      unfold get_channel_by_key set_paused
      rw [find?_proj_map Channel.api_key _ hpk k]
      unfold get_channel_by_key at hfind
      rw [hfind]
      simp
    have hoff' : ({ ch with paused := b } : Channel).is_power_on = false := hoff
    have hmain' := handle_ping_off tg (set_paused db ch.channel_id b) k now
      { ch with paused := b } hk hfind' hoff'
    have hups' := update_power_status_on_found (set_paused db ch.channel_id b) k now
      { ch with paused := b } hfind'
    have hsubs : (update_power_status (update_last_request (set_paused db ch.channel_id b) k now)
        k true now).subs
        = (update_power_status (update_last_request db k now) k true now).subs := by
      rw [update_power_status_subs, update_power_status_subs]
      rfl
    constructor
    · rw [hmain, hmain', hups, hups']
      rfl
    · rw [hmain, hmain']
      simp only [Prod.mk.injEq]
      refine ⟨trivial, ?_⟩
      rw [enabledSubs_congr _ _ ch.channel_id hsubs]
      rfl

/-- Witness for C10 at a concrete input: a paused, currently-OFF device. -/
theorem paused_device_heartbeat_witness :
    get_channel_by_key ⟨[⟨1, some 9, "k", "Europe/Kiev", some 50, false, some 5, true⟩], [], []⟩ "k"
        = some ⟨1, some 9, "k", "Europe/Kiev", some 50, false, some 5, true⟩
    ∧ (handle_ping true ⟨[⟨1, some 9, "k", "Europe/Kiev", some 50, false, some 5, true⟩], [], []⟩
        (some "k") 60).1.history = [] ++ [⟨1, true, 60⟩] :=
  ⟨by decide,
    (paused_device_heartbeat true ⟨[⟨1, some 9, "k", "Europe/Kiev", some 50, false, some 5, true⟩], [], []⟩
      "k" 60 ⟨1, some 9, "k", "Europe/Kiev", some 50, false, some 5, true⟩
      (by decide) (by decide) (by decide) (by decide) rfl).1⟩

/-! ### The timeout scanner (bot.py `check_timeouts`, lines 1493-1561) -/

/-- `TIMEOUT_MINUTES = 5` (bot.py line 17). -/
def TIMEOUT_MINUTES : Int := 5

/-- `timeout_seconds = TIMEOUT_MINUTES * 60` (bot.py line 1507). -/
def timeout_seconds : Int := TIMEOUT_MINUTES * 60

/-- The elapsed-ON line of the lost-power message (`if last_change:` is Python
truthiness, bot.py lines 1517-1521). -/
def lostElapsed (r : Channel) (lr : Int) : Option Int :=
  match r.last_status_change with
  | some lc => if lc = 0 then none else some (lr - lc)
  | none => none

/-- State of one sweep: the evolving database, the messages sent so far, and
whether an uncaught exception has aborted the `for` loop. -/
structure SweepSt where
  db : DB
  msgs : List Msg
  aborted : Bool
deriving DecidableEq

/-- One iteration of the `for row in channels` loop of `check_timeouts`
(bot.py lines 1509-1561), on the snapshot row `r` fetched before the loop.
`storageFail key` models an uncaught storage exception inside
`update_power_status` for that key (the transaction does not commit and the
loop aborts); `notifyFail cid` models a Telegram send failure for the channel
post, which the source catches per device (the device's message block is
skipped and the loop continues); individual DM failures are swallowed inline
(`except: pass`).  `if last_req and ...` is Python truthiness, so a `0.0`
`last_request_time` behaves like an absent one. -/
def scanStep (storageFail : String → Bool) (notifyFail : Int → Bool) (tg : Bool)
    (now : Int) (st : SweepSt) (r : Channel) : SweepSt :=
  if st.aborted then st
  else
    match r.last_request_time with
    | none => st
    | some lr =>
      if lr = 0 then st
      else if now - lr > timeout_seconds then
        if storageFail r.api_key then { st with aborted := true }
        else
          let db2 := update_power_status st.db r.api_key false lr
          let note : Note := ⟨r.channel_id, Direction.lost, lostElapsed r lr⟩
          let newMsgs :=
            if tg then
              if notifyFail r.channel_id then []
              else ⟨r.channel_id, note⟩ :: (enabledSubs db2 r.channel_id).map (fun u => ⟨u, note⟩)
            else []
          ⟨db2, st.msgs ++ newMsgs, false⟩
      else st

/-- One sweep of `check_timeouts`: snapshot
`SELECT ... FROM channels WHERE is_power_on = 1 AND paused = 0` (bot.py
line 1502), then the loop over the snapshot rows. -/
def check_timeouts_runE (storageFail : String → Bool) (notifyFail : Int → Bool)
    (tg : Bool) (db : DB) (now : Int) : SweepSt :=
  (db.channels.filter (fun c => c.is_power_on && !c.paused)).foldl
    (scanStep storageFail notifyFail tg now) ⟨db, [], false⟩

/-- A sweep in which no exception occurs. -/
def check_timeouts_run (tg : Bool) (db : DB) (now : Int) : SweepSt :=
  check_timeouts_runE (fun _ => false) (fun _ => false) tg db now

/-! ### Scanner lemmas -/

theorem update_power_status_keys (db : DB) (k : String) (b : Bool) (ts : Int) :
    (update_power_status db k b ts).channels.map Channel.api_key
      = db.channels.map Channel.api_key := by
  unfold update_power_status
  rcases h : db.channels.find? (fun c => c.api_key == k) with _ | ch <;> rw [h]
  simp only [List.map_map]
  apply List.map_congr_left
  intro c _
  by_cases hc : c.api_key = k <;> simp [hc, Function.comp]

theorem mem_update_power_status_of_key_ne (db : DB) (k : String) (b : Bool) (ts : Int)
    (c : Channel) (hmem : c ∈ db.channels) (hk : ¬ c.api_key = k) :
    c ∈ (update_power_status db k b ts).channels := by
  unfold update_power_status
  rcases h : db.channels.find? (fun x => x.api_key == k) with _ | ch <;> rw [h]
  · exact hmem
  · exact List.mem_map.mpr ⟨c, hmem, by simp [hk]⟩

theorem update_power_status_history_mono (db : DB) (k : String) (b : Bool) (ts : Int)
    (e : HEvent) (he : e ∈ db.history) :
    e ∈ (update_power_status db k b ts).history := by
  unfold update_power_status
  rcases h : db.channels.find? (fun x => x.api_key == k) with _ | ch <;> rw [h]
  · exact he
  · exact List.mem_append_left _ he

theorem find?_key_of_mem_nodup (l : List Channel) (c : Channel) (hmem : c ∈ l)
    (hnodup : (l.map Channel.api_key).Nodup) :
    l.find? (fun x => x.api_key == c.api_key) = some c := by
  induction l with
  | nil => cases hmem
  | cons a rest ih =>
    rcases List.mem_cons.mp hmem with rfl | hmem2
    · simp [List.find?]
    · have hna : ¬ a.api_key = c.api_key := by
        intro he
        have h1 : c.api_key ∈ rest.map Channel.api_key := List.mem_map_of_mem _ hmem2
        have h2 := (List.nodup_cons.mp hnodup).1
        rw [he] at h2
        exact h2 h1
      have hstep : (a.api_key == c.api_key) = false := by
        simpa using hna
      simp only [List.find?, hstep]
      exact ih hmem2 (List.nodup_cons.mp hnodup).2

theorem scanStep_keys (sf : String → Bool) (nf : Int → Bool) (tg : Bool) (now : Int)
    (st : SweepSt) (r : Channel) :
    (scanStep sf nf tg now st r).db.channels.map Channel.api_key
      = st.db.channels.map Channel.api_key := by
  unfold scanStep
  by_cases hab : st.aborted = true
  · rw [if_pos hab]
  · rw [if_neg hab]
    rcases r.last_request_time with _ | lr
    · rfl
    · simp only
      by_cases h0 : lr = 0
      · rw [if_pos h0]
      · rw [if_neg h0]
        by_cases hlate : now - lr > timeout_seconds
        · rw [if_pos hlate]
          by_cases hsf : sf r.api_key = true
          · rw [if_pos hsf]
          · rw [if_neg hsf]
            simp only
            exact update_power_status_keys st.db r.api_key false lr
        · rw [if_neg hlate]

theorem scanStep_mem_of_key_ne (sf : String → Bool) (nf : Int → Bool) (tg : Bool)
    (now : Int) (st : SweepSt) (r : Channel) (c : Channel)
    (hmem : c ∈ st.db.channels) (hk : ¬ c.api_key = r.api_key) :
    c ∈ (scanStep sf nf tg now st r).db.channels := by
  unfold scanStep
  by_cases hab : st.aborted = true
  · rw [if_pos hab]; exact hmem
  · rw [if_neg hab]
    rcases r.last_request_time with _ | lr
    · exact hmem
    · simp only
      by_cases h0 : lr = 0
      · rw [if_pos h0]; exact hmem
      · rw [if_neg h0]
        by_cases hlate : now - lr > timeout_seconds
        · rw [if_pos hlate]
          by_cases hsf : sf r.api_key = true
          · rw [if_pos hsf]; exact hmem
          · rw [if_neg hsf]
            simp only
            exact mem_update_power_status_of_key_ne st.db r.api_key false lr c hmem hk
        · rw [if_neg hlate]; exact hmem

theorem scanStep_history_mono (sf : String → Bool) (nf : Int → Bool) (tg : Bool)
    (now : Int) (st : SweepSt) (r : Channel) (e : HEvent) (he : e ∈ st.db.history) :
    e ∈ (scanStep sf nf tg now st r).db.history := by
  unfold scanStep
  by_cases hab : st.aborted = true
  · rw [if_pos hab]; exact he
  · rw [if_neg hab]
    rcases r.last_request_time with _ | lr
    · exact he
    · simp only
      by_cases h0 : lr = 0
      · rw [if_pos h0]; exact he
      · rw [if_neg h0]
        by_cases hlate : now - lr > timeout_seconds
        · rw [if_pos hlate]
          by_cases hsf : sf r.api_key = true
          · rw [if_pos hsf]; exact he
          · rw [if_neg hsf]
            simp only
            exact update_power_status_history_mono st.db r.api_key false lr e he
        · rw [if_neg hlate]; exact he

theorem scanStep_pure_aborted (nf : Int → Bool) (tg : Bool) (now : Int)
    (st : SweepSt) (r : Channel) :
    (scanStep (fun _ => false) nf tg now st r).aborted = st.aborted := by
  unfold scanStep
  by_cases hab : st.aborted = true
  · rw [if_pos hab]
  · rw [if_neg hab]
    rcases r.last_request_time with _ | lr
    · rfl
    · simp only
      by_cases h0 : lr = 0
      · rw [if_pos h0]
      · rw [if_neg h0]
        by_cases hlate : now - lr > timeout_seconds
        · rw [if_pos hlate]
          simp only [Bool.false_eq_true, if_false]
          simp only [Bool.eq_false_iff] at hab
          simp [hab]
        · rw [if_neg hlate]

/-- Folding a list of rows whose keys all differ from `c.api_key` (with no
storage failure): `c` stays in the channel table untouched, the key multiset is
unchanged, history only grows, and the aborted flag is unchanged. -/
theorem foldl_scanStep_other (nf : Int → Bool) (tg : Bool) (now : Int)
    (l : List Channel) (st : SweepSt) (c : Channel)
    (hl : ∀ r ∈ l, ¬ c.api_key = r.api_key) (hc : c ∈ st.db.channels) :
    c ∈ (l.foldl (scanStep (fun _ => false) nf tg now) st).db.channels
    ∧ (l.foldl (scanStep (fun _ => false) nf tg now) st).db.channels.map Channel.api_key
        = st.db.channels.map Channel.api_key
    ∧ (l.foldl (scanStep (fun _ => false) nf tg now) st).aborted = st.aborted
    ∧ ∀ e ∈ st.db.history, e ∈ (l.foldl (scanStep (fun _ => false) nf tg now) st).db.history := by
  induction l generalizing st with
  | nil => exact ⟨hc, rfl, rfl, fun e he => he⟩
  | cons r rest ih =>
    have hr : ¬ c.api_key = r.api_key := hl r (List.mem_cons_self r rest)
    have hrest : ∀ x ∈ rest, ¬ c.api_key = x.api_key :=
      fun x hx => hl x (List.mem_cons_of_mem r hx)
    have hc1 : c ∈ (scanStep (fun _ => false) nf tg now st r).db.channels :=
      scanStep_mem_of_key_ne _ nf tg now st r c hc hr
    obtain ⟨m1, m2, m3, m4⟩ := ih (scanStep (fun _ => false) nf tg now st r) hrest hc1
    refine ⟨m1, ?_, ?_, ?_⟩
    · rw [List.foldl_cons, m2, scanStep_keys]
    · rw [List.foldl_cons, m3, scanStep_pure_aborted]
    · intro e he
      exact m4 e (scanStep_history_mono _ nf tg now st r e he)

/-- The firing case of one scanner iteration. -/
theorem scanStep_fires (nf : Int → Bool) (tg : Bool) (now : Int) (st : SweepSt)
    (c : Channel) (lr : Int) (hab : st.aborted = false)
    (hlr : c.last_request_time = some lr) (hlr0 : ¬ lr = 0)
    (hlate : now - lr > timeout_seconds) :
    scanStep (fun _ => false) nf tg now st c
      = ⟨update_power_status st.db c.api_key false lr,
         st.msgs ++
           (if tg then
             if nf c.channel_id then []
             else ⟨c.channel_id, ⟨c.channel_id, Direction.lost, lostElapsed c lr⟩⟩ ::
               (enabledSubs (update_power_status st.db c.api_key false lr) c.channel_id).map
                 (fun u => ⟨u, ⟨c.channel_id, Direction.lost, lostElapsed c lr⟩⟩)
            else []),
         false⟩ := by
  unfold scanStep
  rw [hab, hlr]
  simp only [Bool.false_eq_true, if_false, if_neg hlr0, if_pos hlate]

/-- C2 as amended: for every device that is ON, not paused, whose recorded
`last_seen` is non-zero (Python truthiness: `0.0` is treated as absent) and
older than the grace period, the sweep transitions it to OFF carrying timestamp
`last_seen`: it sets `last_change = last_seen` and appends
`HistoryEvent(OFF, last_seen)`, and this timestamp is ≤ the scan's wall-clock
time (and trivially ≥, being equal to, the device's previous `last_seen`). -/
theorem scanner_off_uses_last_seen (nf : Int → Bool) (tg : Bool) (db : DB) (now : Int)
    (c : Channel) (lr : Int)
    (hnodup : (db.channels.map Channel.api_key).Nodup)
    (hmem : c ∈ db.channels) (hon : c.is_power_on = true) (hunpaused : c.paused = false)
    (hlr : c.last_request_time = some lr) (hlr0 : ¬ lr = 0)
    (hlate : now - lr > timeout_seconds) :
    (∃ c2 ∈ (check_timeouts_runE (fun _ => false) nf tg db now).db.channels,
        c2.api_key = c.api_key ∧ c2.is_power_on = false ∧ c2.last_status_change = some lr)
    ∧ (⟨c.channel_id, false, lr⟩ : HEvent)
        ∈ (check_timeouts_runE (fun _ => false) nf tg db now).db.history
    ∧ lr ≤ now := by
  have hrowmem : c ∈ db.channels.filter (fun x => x.is_power_on && !x.paused) := by
    rw [List.mem_filter]
    exact ⟨hmem, by rw [hon, hunpaused]; rfl⟩
  obtain ⟨l1, l2, hsplit⟩ := List.append_of_mem hrowmem
  have hrowsub : (db.channels.filter (fun x => x.is_power_on && !x.paused)).Sublist db.channels :=
    List.filter_sublist db.channels
  have hrownodup : ((db.channels.filter (fun x => x.is_power_on && !x.paused)).map
      Channel.api_key).Nodup :=
    (hrowsub.map Channel.api_key).nodup hnodup
  rw [hsplit] at hrownodup
  have hl1 : ∀ r ∈ l1, ¬ c.api_key = r.api_key := by
    intro r hr heq
    have h1 : (l1.map Channel.api_key ++ c.api_key :: l2.map Channel.api_key).Nodup := by
      simpa using hrownodup
    have h2 := (List.nodup_append.mp h1).2.2
    have hmem1 : c.api_key ∈ l1.map Channel.api_key := by
      rw [heq]; exact List.mem_map_of_mem _ hr
    exact h2 hmem1 (List.mem_cons_self _ _)
  have hl2 : ∀ r ∈ l2, ¬ c.api_key = r.api_key := by
    intro r hr heq
    have h1 : (l1.map Channel.api_key ++ c.api_key :: l2.map Channel.api_key).Nodup := by
      simpa using hrownodup
    have h3 := (List.nodup_append.mp h1).2.1
    have h4 := (List.nodup_cons.mp h3).1
    rw [heq] at h4
    exact h4 (List.mem_map_of_mem _ hr)
  unfold check_timeouts_runE
  rw [hsplit, List.foldl_append, List.foldl_cons]
  set st1 := l1.foldl (scanStep (fun _ => false) nf tg now) ⟨db, [], false⟩ with hst1
  obtain ⟨p1, p2, p3, _⟩ := foldl_scanStep_other nf tg now l1 ⟨db, [], false⟩ c hl1 hmem
  have hnodup1 : (st1.db.channels.map Channel.api_key).Nodup := by
    rw [hst1, p2]; exact hnodup
  have hfind1 : st1.db.channels.find? (fun x => x.api_key == c.api_key) = some c :=
    find?_key_of_mem_nodup _ c p1 hnodup1
  have hfire := scanStep_fires nf tg now st1 c lr (by rw [hst1, p3]) hlr hlr0 hlate
  have hupdated : update_power_status st1.db c.api_key false lr
      = { st1.db with
          channels := st1.db.channels.map (fun x =>
            if x.api_key = c.api_key then { x with is_power_on := false, last_status_change := some lr } else x),
          history := st1.db.history ++ [⟨c.channel_id, false, lr⟩] } := by
    unfold update_power_status
    rw [hfind1]
  have hc2mem : ({ c with is_power_on := false, last_status_change := some lr } : Channel)
      ∈ (update_power_status st1.db c.api_key false lr).channels := by
    rw [hupdated]
    exact List.mem_map.mpr ⟨c, p1, by simp⟩
  have hemem : (⟨c.channel_id, false, lr⟩ : HEvent)
      ∈ (update_power_status st1.db c.api_key false lr).history := by
    rw [hupdated]
    simp
  rw [hfire]
  obtain ⟨q1, _, _, q4⟩ := foldl_scanStep_other nf tg now l2
    ⟨update_power_status st1.db c.api_key false lr, _, false⟩
    ({ c with is_power_on := false, last_status_change := some lr }) hl2 hc2mem
  have ht : timeout_seconds = 300 := rfl
  refine ⟨⟨{ c with is_power_on := false, last_status_change := some lr }, q1, rfl, rfl, rfl⟩, ?_, by omega⟩
  exact q4 _ hemem

/-- Witness for the amended C2: a stale ON device with `last_seen = 10` at scan
time 400 gets `HistoryEvent(OFF, 10)` and `last_change = 10`. -/
theorem scanner_off_uses_last_seen_witness :
    (⟨2, some 9, "k", "Europe/Kiev", some 10, true, some 5, false⟩ : Channel)
        ∈ (⟨[⟨2, some 9, "k", "Europe/Kiev", some 10, true, some 5, false⟩], [], []⟩ : DB).channels
    ∧ (400 : Int) - 10 > timeout_seconds
    ∧ (⟨2, false, 10⟩ : HEvent)
        ∈ (check_timeouts_runE (fun _ => false) (fun _ => false) true
            ⟨[⟨2, some 9, "k", "Europe/Kiev", some 10, true, some 5, false⟩], [], []⟩ 400).db.history :=
  ⟨by decide, by decide,
    (scanner_off_uses_last_seen (fun _ => false) true
      ⟨[⟨2, some 9, "k", "Europe/Kiev", some 10, true, some 5, false⟩], [], []⟩ 400
      ⟨2, some 9, "k", "Europe/Kiev", some 10, true, some 5, false⟩ 10
      (by decide) (by decide) (by decide) (by decide) (by decide) (by decide) (by decide)).2.1⟩

/-- A device whose recorded `last_seen` is exactly `0` (the float `0.0`). -/
def dbZeroSeen : DB := ⟨[⟨2, some 9, "k", "Europe/Kiev", some 0, true, none, false⟩], [], []⟩

/-- Counterexample to C2 as stated: a device that is ON, not paused, with a
*recorded* `last_seen` (= 0, i.e. the epoch) exceeding the grace period at scan
time 400 — yet the sweep performs no transition at all (`if last_req` is Python
truthiness, so `0.0` is treated as absent), so no OFF event with timestamp
`last_seen` is appended and `last_change` is not set. -/
theorem scanner_zero_last_seen_counterexample :
    dbZeroSeen.channels = [⟨2, some 9, "k", "Europe/Kiev", some 0, true, none, false⟩]
    ∧ (400 : Int) - 0 > timeout_seconds
    ∧ check_timeouts_run true dbZeroSeen 400 = ⟨dbZeroSeen, [], false⟩
    ∧ (check_timeouts_run true dbZeroSeen 400).db.history = [] := by
  refine ⟨by decide, by decide, by decide, by decide⟩

/-! ### Failure isolation in the sweep (claim C8) -/

/-- With no storage failure, one scanner iteration yields the same database on
any two runs that differ only in the notification-failure oracle and the
messages accumulated so far, and never flips the aborted flag. -/
theorem scanStep_shape (nf1 nf2 : Int → Bool) (tg : Bool) (now : Int) (d : DB)
    (m1 m2 : List Msg) (ab : Bool) (r : Channel) :
    ∃ d2 m1b m2b,
      scanStep (fun _ => false) nf1 tg now ⟨d, m1, ab⟩ r = ⟨d2, m1b, ab⟩
      ∧ scanStep (fun _ => false) nf2 tg now ⟨d, m2, ab⟩ r = ⟨d2, m2b, ab⟩ := by
  unfold scanStep
  cases ab with
  | true =>
    exact ⟨d, m1, m2, by rw [if_pos rfl], by rw [if_pos rfl]⟩
  | false =>
    rw [if_neg (by simp), if_neg (by simp)]
    rcases hlr : r.last_request_time with _ | lr
    · exact ⟨d, m1, m2, rfl, rfl⟩
    · simp only
      by_cases h0 : lr = 0
      · rw [if_pos h0, if_pos h0]
        exact ⟨d, m1, m2, rfl, rfl⟩
      · rw [if_neg h0, if_neg h0]
        by_cases hlate : now - lr > timeout_seconds
        · rw [if_pos hlate, if_pos hlate]
          simp only [Bool.false_eq_true, if_false]
          exact ⟨update_power_status d r.api_key false lr, _, _, rfl, rfl⟩
        · rw [if_neg hlate, if_neg hlate]
          exact ⟨d, m1, m2, rfl, rfl⟩

theorem foldl_scanStep_nf (nf1 nf2 : Int → Bool) (tg : Bool) (now : Int)
    (l : List Channel) :
    ∀ (d : DB) (m1 m2 : List Msg) (ab : Bool),
      (l.foldl (scanStep (fun _ => false) nf1 tg now) ⟨d, m1, ab⟩).db
        = (l.foldl (scanStep (fun _ => false) nf2 tg now) ⟨d, m2, ab⟩).db
      ∧ (l.foldl (scanStep (fun _ => false) nf1 tg now) ⟨d, m1, ab⟩).aborted = ab := by
  induction l with
  | nil => intro d m1 m2 ab; exact ⟨rfl, rfl⟩
  | cons r rest ih =>
    intro d m1 m2 ab
    obtain ⟨d2, m1b, m2b, e1, e2⟩ := scanStep_shape nf1 nf2 tg now d m1 m2 ab r
    rw [List.foldl_cons, List.foldl_cons, e1, e2]
    exact ih d2 m1b m2b ab

/-- C8 as amended, isolation half: a notification-delivery failure while
processing one device never aborts the sweep and never changes the database
outcome — every remaining device is still evaluated and transitioned exactly as
in a failure-free sweep.  (Storage failures, by contrast, abort the sweep: see
the counterexample.) -/
theorem scanner_notification_failure_isolated (nf : Int → Bool) (tg : Bool)
    (db : DB) (now : Int) :
    (check_timeouts_runE (fun _ => false) nf tg db now).db
        = (check_timeouts_run tg db now).db
    ∧ (check_timeouts_runE (fun _ => false) nf tg db now).aborted = false := by
  unfold check_timeouts_run check_timeouts_runE
  exact foldl_scanStep_nf nf (fun _ => false) tg now
    (db.channels.filter (fun c => c.is_power_on && !c.paused)) db [] [] false

/-- Two stale ON devices; a storage failure will hit the first one. -/
def dbTwoStale : DB :=
  ⟨[⟨1, some 9, "a", "Europe/Kiev", some 10, true, some 5, false⟩,
    ⟨2, some 9, "b", "Europe/Kiev", some 10, true, some 5, false⟩], [], []⟩

/-- Counterexample to C8 as stated: two eligible stale devices; a storage
failure while transitioning the first (`update_power_status` raises before
committing, and nothing catches it) aborts the sweep, so the second device —
equally eligible — is left untouched: the sweep returns the database unchanged,
no OFF event is appended for either device, and the aborted flag is set. -/
theorem scanner_storage_abort_counterexample :
    (dbTwoStale.channels.filter (fun c => c.is_power_on && !c.paused)).length = 2
    ∧ (400 : Int) - 10 > timeout_seconds
    ∧ check_timeouts_runE (fun k => k == "a") (fun _ => false) true dbTwoStale 400
        = ⟨dbTwoStale, [], true⟩
    ∧ (check_timeouts_runE (fun k => k == "a") (fun _ => false) true dbTwoStale 400).db.history
        = [] := by
  refine ⟨by decide, by decide, by decide, by decide⟩

/-! ### The history invariant (claim C6) -/

/-- The events of one channel, in table (= insertion) order. -/
def chanEvents (hist : List HEvent) (cid : Int) : List HEvent :=
  hist.filter (fun e => e.channel_id == cid)

/-- Adjacent timestamps are non-decreasing. -/
def chainTs : List HEvent → Bool
  | [] => true
  | [_] => true
  | a :: b :: rest => decide (a.timestamp ≤ b.timestamp) && chainTs (b :: rest)

/-- Adjacent states differ (the alternation property). -/
def chainAlt : List HEvent → Bool
  | [] => true
  | [_] => true
  | a :: b :: rest => (a.status != b.status) && chainAlt (b :: rest)

/-- Well-formedness of the database, as maintained by the two mutating
components: channel ids and api keys are unique (the schema's PRIMARY KEY and
UNIQUE constraints); per channel, events are in non-decreasing timestamp order
(so the insertion order is a timestamp order), consecutive events alternate in
state, the last event's state agrees with `is_power_on`, and an ON channel with
events has a recorded `last_request_time` at or after its last event. -/
def Inv (db : DB) : Prop :=
  (db.channels.map Channel.channel_id).Nodup
  ∧ (db.channels.map Channel.api_key).Nodup
  ∧ ∀ c ∈ db.channels,
      chainTs (chanEvents db.history c.channel_id) = true
      ∧ chainAlt (chanEvents db.history c.channel_id) = true
      ∧ (chanEvents db.history c.channel_id).getLast?.all
          (fun x => c.is_power_on == x.status) = true
      ∧ (!c.is_power_on || (chanEvents db.history c.channel_id).getLast?.all
          (fun x => c.last_request_time.any (fun lr => decide (x.timestamp ≤ lr)))) = true

instance (db : DB) : Decidable (Inv db) :=
  inferInstanceAs (Decidable
    ((db.channels.map Channel.channel_id).Nodup
    ∧ (db.channels.map Channel.api_key).Nodup
    ∧ ∀ c ∈ db.channels,
        chainTs (chanEvents db.history c.channel_id) = true
        ∧ chainAlt (chanEvents db.history c.channel_id) = true
        ∧ (chanEvents db.history c.channel_id).getLast?.all
            (fun x => c.is_power_on == x.status) = true
        ∧ (!c.is_power_on || (chanEvents db.history c.channel_id).getLast?.all
            (fun x => c.last_request_time.any (fun lr => decide (x.timestamp ≤ lr)))) = true))

theorem chainTs_tail (a : HEvent) (l : List HEvent) (h : chainTs (a :: l) = true) :
    chainTs l = true := by
  cases l with
  | nil => rfl
  | cons b rest =>
    simp only [chainTs, Bool.and_eq_true] at h
    exact h.2

theorem chainAlt_tail (a : HEvent) (l : List HEvent) (h : chainAlt (a :: l) = true) :
    chainAlt l = true := by
  cases l with
  | nil => rfl
  | cons b rest =>
    simp only [chainAlt, Bool.and_eq_true] at h
    exact h.2

theorem chainTs_append_one (l : List HEvent) (e : HEvent) (h : chainTs l = true)
    (hle : ∀ x, l.getLast? = some x → x.timestamp ≤ e.timestamp) :
    chainTs (l ++ [e]) = true := by
  induction l with
  | nil => rfl
  | cons a rest ih =>
    cases rest with
    | nil =>
      have := hle a rfl
      simp [chainTs, this]
    | cons b rest2 =>
      simp only [chainTs, Bool.and_eq_true] at h
      obtain ⟨h1, h2⟩ := h
      have hih := ih h2 (fun x hx => hle x (by rw [List.getLast?_cons_cons]; exact hx))
      simp only [List.cons_append] at hih ⊢
      rw [chainTs, Bool.and_eq_true]
      exact ⟨h1, hih⟩

theorem chainAlt_append_one (l : List HEvent) (e : HEvent) (h : chainAlt l = true)
    (hne : ∀ x, l.getLast? = some x → ¬ x.status = e.status) :
    chainAlt (l ++ [e]) = true := by
  induction l with
  | nil => rfl
  | cons a rest ih =>
    cases rest with
    | nil =>
      have := hne a rfl
      simp [chainAlt, this]
    | cons b rest2 =>
      simp only [chainAlt, Bool.and_eq_true] at h
      obtain ⟨h1, h2⟩ := h
      have hih := ih h2 (fun x hx => hne x (by rw [List.getLast?_cons_cons]; exact hx))
      simp only [List.cons_append] at hih ⊢
      rw [chainAlt, Bool.and_eq_true]
      exact ⟨h1, hih⟩

theorem mem_of_getLast?_eq_some {l : List HEvent} {x : HEvent}
    (h : l.getLast? = some x) : x ∈ l := by
  obtain ⟨hne, heq⟩ := List.mem_getLast?_eq_getLast (Option.mem_def.mpr h)
  rw [heq]
  exact List.getLast_mem hne

/-- A list already sorted by timestamp is left unchanged by the stable sort. -/
theorem sortByTs_sorted_id (l : List HEvent) (h : chainTs l = true) : sortByTs l = l := by
  induction l with
  | nil => rfl
  | cons x xs ih =>
    rw [sortByTs, ih (chainTs_tail x xs h)]
    cases xs with
    | nil => rfl
    | cons y ys =>
      have h2 := h
      simp only [chainTs, Bool.and_eq_true, decide_eq_true_eq] at h2
      rw [insertByTs, if_pos h2.1]

theorem chanEvents_append (hist : List HEvent) (e : HEvent) (cid : Int) :
    chanEvents (hist ++ [e]) cid
      = chanEvents hist cid ++ (if e.channel_id == cid then [e] else []) := by
  cases h : (e.channel_id == cid) <;>
    simp [chanEvents, List.filter_append, List.filter, h]

theorem map_channels_proj {β : Type} (g : Channel → Channel) (p : Channel → β)
    (hp : ∀ c, p (g c) = p c) (l : List Channel) : (l.map g).map p = l.map p := by
  rw [List.map_map]
  exact List.map_congr_left (fun c _ => hp c)

theorem update_power_status_preserves_inv (db : DB) (k : String) (b : Bool) (ts : Int)
    (c0 : Channel) (hinv : Inv db)
    (hfind : db.channels.find? (fun x => x.api_key == k) = some c0)
    (hflip : c0.is_power_on = !b)
    (hlast : ∀ x, (chanEvents db.history c0.channel_id).getLast? = some x → x.timestamp ≤ ts)
    (hreq : b = true → ∃ lrq, c0.last_request_time = some lrq ∧ ts ≤ lrq) :
    Inv (update_power_status db k b ts) := by
  obtain ⟨hnid, hnkey, hball⟩ := hinv
  have hkey : c0.api_key = k := by simpa using List.find?_some hfind
  have hmem0 : c0 ∈ db.channels := List.mem_of_find?_eq_some hfind
  unfold update_power_status
  rw [hfind]
  unfold Inv
  refine ⟨?_, ?_, ?_⟩
  · rw [map_channels_proj _ Channel.channel_id
      (fun c => by by_cases h : c.api_key = k <;> simp [h])]
    exact hnid
  · rw [map_channels_proj _ Channel.api_key
      (fun c => by by_cases h : c.api_key = k <;> simp [h])]
    exact hnkey
  · intro c' hc'
    obtain ⟨c, hcmem, hceq⟩ := List.mem_map.mp hc'
    obtain ⟨i1, i2, i3, i4⟩ := hball c hcmem
    by_cases hck : c.api_key = k
    · have hc0 : c = c0 := List.inj_on_of_nodup_map hnkey hcmem hmem0 (by rw [hck, hkey])
      subst hc0
      have hgc : (if c.api_key = k then
            { c with is_power_on := b, last_status_change := some ts } else c)
          = { c with is_power_on := b, last_status_change := some ts } := if_pos hck
      rw [← hceq]
      simp only [hgc]
      have hevs : chanEvents (db.history ++ [(⟨c.channel_id, b, ts⟩ : HEvent)]) c.channel_id
          = chanEvents db.history c.channel_id ++ [⟨c.channel_id, b, ts⟩] := by
        rw [chanEvents_append]
        simp
      refine ⟨?_, ?_, ?_, ?_⟩
      · show chainTs (chanEvents (db.history ++ [(⟨c.channel_id, b, ts⟩ : HEvent)])
          c.channel_id) = true
        rw [hevs]
        exact chainTs_append_one _ _ i1 (fun x hx => hlast x hx)
      · show chainAlt (chanEvents (db.history ++ [(⟨c.channel_id, b, ts⟩ : HEvent)])
          c.channel_id) = true
        rw [hevs]
        refine chainAlt_append_one _ _ i2 (fun x hx => ?_)
        rw [hx] at i3
        simp only [Option.all, beq_iff_eq] at i3
        intro hxe
        rw [← i3, hflip] at hxe
        exact Bool.not_ne_self b hxe
      · show ((chanEvents (db.history ++ [(⟨c.channel_id, b, ts⟩ : HEvent)])
            c.channel_id).getLast?.all (fun x => b == x.status)) = true
        rw [hevs, List.getLast?_concat]
        simp [Option.all]
      · show (!b || (chanEvents (db.history ++ [(⟨c.channel_id, b, ts⟩ : HEvent)])
            c.channel_id).getLast?.all
            (fun x => c.last_request_time.any (fun lr => decide (x.timestamp ≤ lr)))) = true
        cases b with
        | false => rfl
        | true =>
          obtain ⟨lrq, hlrq, hle⟩ := hreq rfl
          rw [hevs, List.getLast?_concat]
          simp [Option.all, Option.any, hlrq, hle]
    · have hgc : (if c.api_key = k then
            { c with is_power_on := b, last_status_change := some ts } else c) = c := if_neg hck
      rw [← hceq]
      simp only [hgc]
      have hcid : ¬ c.channel_id = c0.channel_id := by
        intro he
        have hcc : c = c0 := List.inj_on_of_nodup_map hnid hcmem hmem0 he
        rw [hcc] at hck
        exact hck hkey
      have hne : ((⟨c0.channel_id, b, ts⟩ : HEvent).channel_id == c.channel_id) = false := by
        simp only [beq_eq_false_iff_ne]
        exact fun h => hcid h.symm
      have hevs : chanEvents (db.history ++ [(⟨c0.channel_id, b, ts⟩ : HEvent)]) c.channel_id
          = chanEvents db.history c.channel_id := by
        rw [chanEvents_append, hne]
        simp
      refine ⟨?_, ?_, ?_, ?_⟩
      · show chainTs (chanEvents (db.history ++ [(⟨c0.channel_id, b, ts⟩ : HEvent)])
          c.channel_id) = true
        rw [hevs]; exact i1
      · show chainAlt (chanEvents (db.history ++ [(⟨c0.channel_id, b, ts⟩ : HEvent)])
          c.channel_id) = true
        rw [hevs]; exact i2
      · show ((chanEvents (db.history ++ [(⟨c0.channel_id, b, ts⟩ : HEvent)])
            c.channel_id).getLast?.all (fun x => c.is_power_on == x.status)) = true
        rw [hevs]; exact i3
      · show (!c.is_power_on || (chanEvents (db.history ++ [(⟨c0.channel_id, b, ts⟩ : HEvent)])
            c.channel_id).getLast?.all
            (fun x => c.last_request_time.any (fun lr => decide (x.timestamp ≤ lr)))) = true
        rw [hevs]; exact i4

theorem update_last_request_preserves_inv (db : DB) (k : String) (now : Int)
    (hinv : Inv db) (hnow : ∀ e ∈ db.history, e.timestamp ≤ now) :
    Inv (update_last_request db k now) := by
  obtain ⟨hnid, hnkey, hball⟩ := hinv
  unfold update_last_request Inv
  refine ⟨?_, ?_, ?_⟩
  · rw [map_channels_proj _ Channel.channel_id
      (fun c => by by_cases h : c.api_key = k <;> simp [h])]
    exact hnid
  · rw [map_channels_proj _ Channel.api_key
      (fun c => by by_cases h : c.api_key = k <;> simp [h])]
    exact hnkey
  · intro c' hc'
    obtain ⟨c, hcmem, hceq⟩ := List.mem_map.mp hc'
    obtain ⟨i1, i2, i3, i4⟩ := hball c hcmem
    by_cases hck : c.api_key = k
    · rw [← hceq]
      simp only [if_pos hck]
      refine ⟨i1, i2, i3, ?_⟩
      show (!c.is_power_on || (chanEvents db.history c.channel_id).getLast?.all
          (fun x => (some now).any (fun lr => decide (x.timestamp ≤ lr)))) = true
      cases hon : c.is_power_on with
      | false => rfl
      | true =>
        simp only [Bool.not_true, Bool.false_or]
        rcases hL : (chanEvents db.history c.channel_id).getLast? with _ | x
        · rfl
        · have hxmem : x ∈ db.history :=
            List.mem_of_mem_filter (mem_of_getLast?_eq_some hL)
          have hxle := hnow x hxmem
          simp [Option.all, Option.any, hxle]
    · rw [← hceq]
      simp only [if_neg hck]
      exact ⟨i1, i2, i3, i4⟩

theorem handle_ping_preserves_inv (tg : Bool) (db : DB) (okey : Option String)
    (now : Int) (hinv : Inv db) (hnow : ∀ e ∈ db.history, e.timestamp ≤ now) :
    Inv (handle_ping tg db okey now).1 := by
  match okey with
  | none => exact hinv
  | some k =>
    by_cases hk : k = ""
    · simp only [handle_ping, if_pos hk]
      exact hinv
    · rcases hfind : get_channel_by_key db k with _ | ch
      · simp only [handle_ping, if_neg hk, hfind]
        exact hinv
      · have hinv1 : Inv (update_last_request db k now) :=
          update_last_request_preserves_inv db k now hinv hnow
        by_cases hon : ch.is_power_on = true
        · simp only [handle_ping, if_neg hk, hfind, hon, if_true]
          exact hinv1
        · have hoff : ch.is_power_on = false := by
            cases h : ch.is_power_on
            · rfl
            · exact absurd h hon
          rw [handle_ping_off tg db k now ch hk hfind hoff]
          show Inv (update_power_status (update_last_request db k now) k true now)
          apply update_power_status_preserves_inv _ k true now
            ({ ch with last_request_time := some now }) hinv1
          · have h1 := get_key_update_last_request db k now ch hfind
            unfold get_channel_by_key at h1
            exact h1
          · show ch.is_power_on = !true
            rw [hoff]
            rfl
          · intro x hx
            have hxmem : x ∈ db.history :=
              List.mem_of_mem_filter (mem_of_getLast?_eq_some hx)
            exact hnow x hxmem
          · intro _
            exact ⟨now, rfl, le_refl now⟩

/-- The possible database outcomes of one scanner iteration. -/
theorem scanStep_cases (sf : String → Bool) (nf : Int → Bool) (tg : Bool) (now : Int)
    (st : SweepSt) (r : Channel) :
    (scanStep sf nf tg now st r).db = st.db
    ∨ ∃ lr, r.last_request_time = some lr ∧ ¬ lr = 0 ∧ now - lr > timeout_seconds
        ∧ (scanStep sf nf tg now st r).db = update_power_status st.db r.api_key false lr := by
  unfold scanStep
  by_cases hab : st.aborted = true
  · rw [if_pos hab]
    left
    rfl
  · rw [if_neg hab]
    rcases hlr : r.last_request_time with _ | lr
    · left; rfl
    · simp only
      by_cases h0 : lr = 0
      · rw [if_pos h0]; left; rfl
      · rw [if_neg h0]
        by_cases hlate : now - lr > timeout_seconds
        · rw [if_pos hlate]
          by_cases hsf : sf r.api_key = true
          · rw [if_pos hsf]; left; rfl
          · rw [if_neg hsf]
            right
            exact ⟨lr, rfl, h0, hlate, rfl⟩
        · rw [if_neg hlate]; left; rfl

theorem foldl_scanStep_preserves_inv (nf : Int → Bool) (tg : Bool) (now : Int)
    (rows : List Channel) :
    ∀ st : SweepSt, Inv st.db →
      (rows.map Channel.api_key).Nodup →
      (∀ r ∈ rows, st.db.channels.find? (fun x => x.api_key == r.api_key) = some r) →
      (∀ r ∈ rows, r.is_power_on = true) →
      Inv (rows.foldl (scanStep (fun _ => false) nf tg now) st).db := by
  induction rows with
  | nil =>
    intro st h _ _ _
    exact h
  | cons r rest ih =>
    intro st hst hnodup hfind hon
    have hnodup2 : (rest.map Channel.api_key).Nodup := by
      simp only [List.map_cons, List.nodup_cons] at hnodup
      exact hnodup.2
    have hheadkey : r.api_key ∉ rest.map Channel.api_key := by
      simp only [List.map_cons, List.nodup_cons] at hnodup
      exact hnodup.1
    rw [List.foldl_cons]
    rcases scanStep_cases (fun _ => false) nf tg now st r with hcase | ⟨lr, hlr, h0, hlate, heq⟩
    · exact ih _ (by rw [hcase]; exact hst) hnodup2
        (fun r2 hr2 => by rw [hcase]; exact hfind r2 (List.mem_cons_of_mem r hr2))
        (fun r2 hr2 => hon r2 (List.mem_cons_of_mem r hr2))
    · have hfr := hfind r (List.mem_cons_self r rest)
      have hmemr : r ∈ st.db.channels := List.mem_of_find?_eq_some hfr
      have honr : r.is_power_on = true := hon r (List.mem_cons_self r rest)
      have hinv2 : Inv (update_power_status st.db r.api_key false lr) := by
        apply update_power_status_preserves_inv st.db r.api_key false lr r hst hfr
        · rw [honr]; rfl
        · intro x hx
          obtain ⟨_, _, _, i4⟩ := hst.2.2 r hmemr
          rw [honr] at i4
          simp only [Bool.not_true, Bool.false_or] at i4
          rw [hx] at i4
          simp only [Option.all, hlr, Option.any, decide_eq_true_eq] at i4
          exact i4
        · intro h
          exact absurd h (by decide)
      have hfind2 : ∀ r2 ∈ rest,
          (update_power_status st.db r.api_key false lr).channels.find?
            (fun x => x.api_key == r2.api_key) = some r2 := by
        intro r2 hr2
        have hne : ¬ r2.api_key = r.api_key := by
          intro heqk
          apply hheadkey
          rw [← heqk]
          exact List.mem_map_of_mem _ hr2
        unfold update_power_status
        rw [hfr]
        simp only
        rw [find?_proj_map Channel.api_key _
          (fun c => by by_cases h : c.api_key = r.api_key <;> simp [h]) r2.api_key]
        rw [hfind r2 (List.mem_cons_of_mem r hr2)]
        simp [hne]
      exact ih _ (by rw [heq]; exact hinv2) hnodup2
        (fun r2 hr2 => by rw [heq]; exact hfind2 r2 hr2)
        (fun r2 hr2 => hon r2 (List.mem_cons_of_mem r hr2))

theorem check_timeouts_preserves_inv (nf : Int → Bool) (tg : Bool) (db : DB) (now : Int)
    (hinv : Inv db) :
    Inv (check_timeouts_runE (fun _ => false) nf tg db now).db := by
  unfold check_timeouts_runE
  apply foldl_scanStep_preserves_inv nf tg now _ ⟨db, [], false⟩ hinv
  · exact ((List.filter_sublist db.channels).map Channel.api_key).nodup hinv.2.1
  · intro r hr
    exact find?_key_of_mem_nodup _ r (List.mem_of_mem_filter hr) hinv.2.1
  · intro r hr
    have h2 := (List.mem_filter.mp hr).2
    simp only [Bool.and_eq_true] at h2
    exact h2.1

/-- C6: in a well-formed database the per-device event sequence read in
timestamp order (the stable sort, which is the identity here) never contains
two consecutive equal states, and well-formedness — hence alternation — is
preserved by every heartbeat-processing step (any key, including rejected
ones, at any time not before the recorded events) and by every timeout sweep. -/
theorem alternation_invariant (tg : Bool) (db : DB) (okey : Option String)
    (now now2 : Int) (hinv : Inv db)
    (hnow : ∀ e ∈ db.history, e.timestamp ≤ now) :
    (∀ c ∈ db.channels, chainAlt (sortByTs (chanEvents db.history c.channel_id)) = true)
    ∧ Inv (handle_ping tg db okey now).1
    ∧ Inv (check_timeouts_run tg db now2).db := by
  refine ⟨?_, handle_ping_preserves_inv tg db okey now hinv hnow,
    check_timeouts_preserves_inv _ tg db now2 hinv⟩
  intro c hc
  obtain ⟨i1, i2, _, _⟩ := hinv.2.2 c hc
  rw [sortByTs_sorted_id _ i1]
  exact i2

/-- A two-device database satisfying the invariant: device 1 has the history
ON@10, OFF@20, ON@40 and is currently ON; device 2 has no events yet. -/
def dbInv : DB :=
  ⟨[⟨1, some 9, "a", "Europe/Kiev", some 40, true, some 40, false⟩,
    ⟨2, some 8, "b", "Europe/Kiev", none, false, none, true⟩],
   [⟨1, true, 10⟩, ⟨1, false, 20⟩, ⟨1, true, 40⟩], []⟩

/-- Witness for C6 at a concrete input. -/
theorem alternation_invariant_witness :
    Inv dbInv ∧ (∀ e ∈ dbInv.history, e.timestamp ≤ 50)
    ∧ ((∀ c ∈ dbInv.channels,
          chainAlt (sortByTs (chanEvents dbInv.history c.channel_id)) = true)
       ∧ Inv (handle_ping true dbInv (some "a") 50).1
       ∧ Inv (check_timeouts_run true dbInv 100).db) :=
  ⟨by decide, by decide,
    alternation_invariant true dbInv (some "a") 50 100 (by decide) (by decide)⟩

/-! ### The status query and the UNKNOWN state (claim C9) -/

/-- The record returned by `get_channel_config` (bot.py lines 100-114), with
its defaults row for an unknown channel id. -/
structure ChannelConfig where
  owner_id : Option Int
  api_key : Option String
  timezone : String
  last_request_time : Option Int
  is_power_on : Bool
  last_status_change : Option Int
deriving DecidableEq

def get_channel_config (db : DB) (cid : Int) : ChannelConfig :=
  match findChannelById db cid with
  | some c =>
    ⟨c.owner_id, some c.api_key, c.timezone, c.last_request_time, c.is_power_on,
     c.last_status_change⟩
  | none => ⟨none, none, "Europe/Kiev", none, false, none⟩

/-- The three distinct shapes of the per-channel status reply
(bot.py lines 989-1013): not configured; never any request (the reply carries a
warning and neither a last-request nor a status-change line — the UNKNOWN
state); or a report of the current ON/OFF state. -/
inductive StatusView where
  | notConfigured
  | noData
  | report (is_on : Bool) (time_since : Int) (status_change : Option Int)
deriving DecidableEq

/-- The branching of `status_cmd` for a single channel (bot.py lines 989-1013).
`if config["last_status_change"]:` is Python truthiness. -/
def status_view (db : DB) (cid : Int) (now : Int) : StatusView :=
  match (get_channel_config db cid).owner_id with
  | none => StatusView.notConfigured
  | some _ =>
    match (get_channel_config db cid).last_request_time with
    | none => StatusView.noData
    | some lr =>
      StatusView.report (get_channel_config db cid).is_power_on (now - lr)
        (match (get_channel_config db cid).last_status_change with
         | some lc => if lc = 0 then none else some (now - lc)
         | none => none)

/-- The relation "same identity, and a recorded `last_seen` stays recorded". -/
def ReqPreserved (c c2 : Channel) : Prop :=
  c.channel_id = c2.channel_id ∧ c.api_key = c2.api_key
  ∧ (c.last_request_time.isSome = true → c2.last_request_time.isSome = true)

theorem forall2_req_refl (l : List Channel) : List.Forall₂ ReqPreserved l l :=
  List.forall₂_same.mpr (fun _ _ => ⟨rfl, rfl, id⟩)

theorem forall2_req_map (l : List Channel) (f : Channel → Channel)
    (hf : ∀ c, ReqPreserved c (f c)) : List.Forall₂ ReqPreserved l (l.map f) := by
  induction l with
  | nil => exact List.Forall₂.nil
  | cons c rest ih => exact List.Forall₂.cons (hf c) ih

theorem forall2_req_trans {l1 l2 l3 : List Channel}
    (h1 : List.Forall₂ ReqPreserved l1 l2) (h2 : List.Forall₂ ReqPreserved l2 l3) :
    List.Forall₂ ReqPreserved l1 l3 := by
  induction h1 generalizing l3 with
  | nil =>
    cases h2
    exact List.Forall₂.nil
  | cons hab hrest ih =>
    cases h2 with
    | cons hbc hrest2 =>
      exact List.Forall₂.cons
        ⟨hab.1.trans hbc.1, hab.2.1.trans hbc.2.1, fun h => hbc.2.2 (hab.2.2 h)⟩
        (ih hrest2)

theorem update_last_request_forall2 (db : DB) (k : String) (ts : Int) :
    List.Forall₂ ReqPreserved db.channels (update_last_request db k ts).channels := by
  apply forall2_req_map
  intro c
  by_cases h : c.api_key = k <;> simp [ReqPreserved, h]

theorem update_power_status_forall2 (db : DB) (k : String) (b : Bool) (ts : Int) :
    List.Forall₂ ReqPreserved db.channels (update_power_status db k b ts).channels := by
  unfold update_power_status
  rcases h : db.channels.find? (fun c => c.api_key == k) with _ | ch <;> rw [h]
  · exact forall2_req_refl db.channels
  · apply forall2_req_map
    intro c
    by_cases hc : c.api_key = k <;> simp [ReqPreserved, hc]

theorem handle_ping_forall2 (tg : Bool) (db : DB) (okey : Option String) (now : Int) :
    List.Forall₂ ReqPreserved db.channels (handle_ping tg db okey now).1.channels := by
  match okey with
  | none => exact forall2_req_refl db.channels
  | some k =>
    by_cases hk : k = ""
    · simp only [handle_ping, if_pos hk]
      exact forall2_req_refl db.channels
    · rcases hfind : get_channel_by_key db k with _ | ch
      · simp only [handle_ping, if_neg hk, hfind]
        exact forall2_req_refl db.channels
      · by_cases hon : ch.is_power_on = true
        · simp only [handle_ping, if_neg hk, hfind, hon, if_true]
          exact update_last_request_forall2 db k now
        · have hoff : ch.is_power_on = false := by
            cases h : ch.is_power_on
            · rfl
            · exact absurd h hon
          rw [handle_ping_off tg db k now ch hk hfind hoff]
          exact forall2_req_trans (update_last_request_forall2 db k now)
            (update_power_status_forall2 (update_last_request db k now) k true now)

theorem foldl_scanStep_forall2 (nf : Int → Bool) (tg : Bool) (now : Int)
    (rows : List Channel) (x : List Channel) :
    ∀ st : SweepSt, List.Forall₂ ReqPreserved x st.db.channels →
      List.Forall₂ ReqPreserved x
        ((rows.foldl (scanStep (fun _ => false) nf tg now) st).db.channels) := by
  induction rows with
  | nil => intro st h; exact h
  | cons r rest ih =>
    intro st h
    rw [List.foldl_cons]
    apply ih
    rcases scanStep_cases (fun _ => false) nf tg now st r with hcase | ⟨lr, _, _, _, heq⟩
    · rw [hcase]; exact h
    · rw [heq]
      exact forall2_req_trans h (update_power_status_forall2 st.db r.api_key false lr)

theorem check_timeouts_forall2 (tg : Bool) (db : DB) (now : Int) :
    List.Forall₂ ReqPreserved db.channels (check_timeouts_run tg db now).db.channels := by
  unfold check_timeouts_run check_timeouts_runE
  exact foldl_scanStep_forall2 (fun _ => false) tg now _ db.channels ⟨db, [], false⟩
    (forall2_req_refl db.channels)

/-- C9: a configured device that never received an accepted heartbeat (no
`last_request_time`, no `last_status_change`, no events) is reported by the
status command as the `noData` view — a third shape distinct from every ON or
OFF report; `get_daily_stats` returns `None` for it; and the no-data state is
never re-entered: both heartbeat processing (with any key) and the timeout
sweep preserve a recorded `last_request_time` on every channel. -/
theorem unknown_state (db : DB) (cid : Int) (c : Channel) (now t0 tn : Int)
    (hfind : findChannelById db cid = some c) (howner : ¬ c.owner_id = none)
    (hno : c.last_request_time = none) (hlsc : c.last_status_change = none)
    (hevs : chanEvents db.history cid = []) :
    status_view db cid now = StatusView.noData
    ∧ (∀ b t oc, ¬ StatusView.noData = StatusView.report b t oc)
    ∧ get_daily_stats db cid t0 tn = none
    ∧ (∀ (db2 : DB) (tg : Bool) (okey : Option String) (now2 : Int),
        List.Forall₂ ReqPreserved db2.channels (handle_ping tg db2 okey now2).1.channels)
    ∧ (∀ (db2 : DB) (tg : Bool) (now2 : Int),
        List.Forall₂ ReqPreserved db2.channels (check_timeouts_run tg db2 now2).db.channels) := by
  have hnil : ∀ e ∈ db.history, (e.channel_id == cid) = false := by
    intro e he
    have :=  List.filter_eq_nil_iff.mp hevs e he
    simpa using this
  refine ⟨?_, ?_, ?_, ?_, ?_⟩
  · rcases ho : c.owner_id with _ | oid
    · exact absurd ho howner
    · simp only [status_view, get_channel_config, hfind, ho, hno]
  · intro b t oc h
    cases h
  · have hrows : historyRows db cid t0 = [] := by
      unfold historyRows
      rw [show db.history.filter (fun e => decide (e.channel_id = cid ∧ t0 ≤ e.timestamp)) = [] by
        rw [ List.filter_eq_nil_iff]
        intro e he
        have h1 := hnil e he
        simp only [decide_eq_true_eq]
        intro hcon
        rw [hcon.1] at h1
        simp at h1]
      rfl
    have hsam : statusAtMidnight db cid t0 = none := by
      unfold statusAtMidnight
      rw [show db.history.filter (fun e => decide (e.channel_id = cid ∧ e.timestamp < t0)) = [] by
        rw [ List.filter_eq_nil_iff]
        intro e he
        have h1 := hnil e he
        simp only [decide_eq_true_eq]
        intro hcon
        rw [hcon.1] at h1
        simp at h1]
      rfl
    unfold get_daily_stats
    rw [if_pos ⟨hrows, hsam⟩]
    simp only [hfind, hlsc]
  · intro db2 tg okey now2
    exact handle_ping_forall2 tg db2 okey now2
  · intro db2 tg now2
    exact check_timeouts_forall2 tg db2 now2

/-- Witness for C9 at a concrete input. -/
theorem unknown_state_witness :
    findChannelById ⟨[⟨1, some 9, "k", "Europe/Kiev", none, false, none, false⟩], [], []⟩ 1
        = some ⟨1, some 9, "k", "Europe/Kiev", none, false, none, false⟩
    ∧ status_view ⟨[⟨1, some 9, "k", "Europe/Kiev", none, false, none, false⟩], [], []⟩ 1 60
        = StatusView.noData
    ∧ get_daily_stats ⟨[⟨1, some 9, "k", "Europe/Kiev", none, false, none, false⟩], [], []⟩ 1 0 100
        = none :=
  ⟨by decide,
    (unknown_state ⟨[⟨1, some 9, "k", "Europe/Kiev", none, false, none, false⟩], [], []⟩ 1
      ⟨1, some 9, "k", "Europe/Kiev", none, false, none, false⟩ 60 0 100
      (by decide) (by decide) (by decide) (by decide) (by decide)).1,
    (unknown_state ⟨[⟨1, some 9, "k", "Europe/Kiev", none, false, none, false⟩], [], []⟩ 1
      ⟨1, some 9, "k", "Europe/Kiev", none, false, none, false⟩ 60 0 100
      (by decide) (by decide) (by decide) (by decide) (by decide)).2.2.1⟩

end LightStatus
